import Mathlib

/-!
Shallow embedding of the data acquisition and fallback pipeline of the
F1 Team Portal repository (src/js/data-fetcher.js, together with the
utils module bundled in the same file).

Pure functions of the source become Lean functions; the localStorage
cache becomes an explicit `Store` state threaded through the cache
operations; promise rejection / thrown errors become `Except` values;
the two external sources (remote API, static fallback file) become an
`Env` record describing the outcome the environment would hand the
pipeline during one invocation.
-/

namespace F1Portal

/-- ASCII whitespace, the model of the characters matched by the
JavaScript regexes and by `trim` in this code base. -/
def jsWs (c : Char) : Bool :=
  c == ' ' || c == '\t' || c == '\n' || c == '\r' || c.toNat == 11 || c.toNat == 12

/-- Model of `String.prototype.toLowerCase` (character-wise lowering). -/
def jsToLower (s : String) : String :=
  String.mk (s.data.map Char.toLower)

/-- Drop leading and trailing whitespace from a character list. -/
def trimChars (cs : List Char) : List Char :=
  ((cs.dropWhile (fun c => jsWs c)).reverse.dropWhile (fun c => jsWs c)).reverse

/-- Model of `String.prototype.trim`. -/
def jsTrim (s : String) : String :=
  String.mk (trimChars s.data)

/-- Replace each maximal run of whitespace by a single hyphen.
The boolean flag records whether the previous character was part of a
whitespace run. This is `replace(/\s+/g, "-")`. -/
def collapseWsAux : Bool → List Char → List Char
  | _, [] => []
  | inRun, c :: rest =>
    if jsWs c then
      if inRun then collapseWsAux true rest
      else '-' :: collapseWsAux true rest
    else c :: collapseWsAux false rest

/-- `name.toLowerCase().replace(/\s+/g, "-")`: the slug used as a team id
(data-fetcher.js line 74 and utils `getTeamId`). -/
def jsSlugify (s : String) : String :=
  String.mk (collapseWsAux false ((jsToLower s).data))

/-- Leading decimal digits of a character list, `none` when there are
none (the NaN case of `parseInt`). -/
def parseDigits (cs : List Char) : Option Nat :=
  let ds := cs.takeWhile Char.isDigit
  if ds.isEmpty then none
  else some (ds.foldl (fun acc c => acc * 10 + (c.toNat - 48)) 0)

/-- Model of `parseInt` on a string: skip leading whitespace, optional
sign, then leading decimal digits; `none` models NaN. -/
def jsParseInt (s : String) : Option Int :=
  match s.data.dropWhile (fun c => jsWs c) with
  | '-' :: rest => (parseDigits rest).map (fun n => -(n : Int))
  | '+' :: rest => (parseDigits rest).map (fun n => (n : Int))
  | rest => (parseDigits rest).map (fun n => (n : Int))

/-- `v || d` for an optional string: JavaScript treats `undefined` and
the empty string as falsy. -/
def jsOrStr (v : Option String) (d : String) : String :=
  match v with
  | some s => if s = "" then d else s
  | none => d

/-- `parseInt(established) || currentYear` (0 and NaN both fall back). -/
def foundedOf (currentYear : Int) (est : Option String) : Int :=
  match est.bind jsParseInt with
  | some n => if n = 0 then currentYear else n
  | none => currentYear

/-- A driver record as built by `fetchDriverData`. -/
structure Driver where
  id : String
  name : String
  number : String
  nationality : String
  image : String
  points : Nat
  races : Nat
  wins : Nat
deriving DecidableEq, Repr

/-- A team record as built by the pipeline (the fields assigned in
`fetchFromErgastAPI` at data-fetcher.js lines 73-91). -/
structure Team where
  id : String
  name : String
  logo : String
  country : String
  founded : Int
  principal : String
  powerUnit : String
  championships : Nat
  wins : Nat
  podiums : Nat
  accent_color : String
  drivers : List Driver
  website : String
  socialTwitter : String
  socialInstagram : String
deriving DecidableEq, Repr

/-- One upstream record of the Ergast teams endpoint, with the fields
the transform reads; `none` models an absent JSON field. -/
structure ErgastTeam where
  name : String
  nationality : String
  established : Option String
  ctor : Option String
  url : Option String
deriving DecidableEq, Repr

/-- First value in an association list whose key is `k`, the model of a
JavaScript object-literal lookup `colors[k]`. -/
def assocLookup (l : List (String × String)) (k : String) : Option String :=
  match l with
  | [] => none
  | (a, b) :: rest => if a = k then some b else assocLookup rest k

namespace DataFetcher

/-- The name→hex table of `getTeamAccentColor` in data-fetcher.js
(lines 229-240). -/
def colors : List (String × String) :=
  [("mercedes", "#00D4BE"), ("red bull", "#0600EF"), ("ferrari", "#FF1801"),
   ("mclaren", "#FF8700"), ("alpine", "#0093D0"), ("aston martin", "#006F62"),
   ("williams", "#005AFF"), ("alfa romeo", "#900000"), ("haas", "#FFFFFF"),
   ("alpha tauri", "#2B4562")]

/-- `getTeamAccentColor` of data-fetcher.js: lower-case, trim, look the
name up, default `#FF1801`. -/
def getTeamAccentColor (teamName : String) : String :=
  (assocLookup colors (jsTrim (jsToLower teamName))).getD "#FF1801"

end DataFetcher

namespace Utils

/-- The name→hex table of `getTeamAccentColor` in the utils module
(lines 337-352), which also has space-free aliases. -/
def colors : List (String × String) :=
  [("mercedes", "#00D4BE"), ("red bull", "#0600EF"), ("redbull", "#0600EF"),
   ("ferrari", "#FF1801"), ("mclaren", "#FF8700"), ("alpine", "#0093D0"),
   ("aston martin", "#006F62"), ("astonmartin", "#006F62"),
   ("williams", "#005AFF"), ("alfa romeo", "#900000"), ("alfaromeo", "#900000"),
   ("haas", "#FFFFFF"), ("alpha tauri", "#2B4562"), ("alphatauri", "#2B4562")]

/-- `getTeamAccentColor` of the utils module. -/
def getTeamAccentColor (teamName : String) : String :=
  (assocLookup colors (jsTrim (jsToLower teamName))).getD "#FF1801"

end Utils

/-- 24 hours in milliseconds (`CACHE_DURATION`). -/
def CACHE_DURATION : Nat := 24 * 60 * 60 * 1000

/-- What the payload key of localStorage holds: either a value that
deserializes to a team list, or a corrupt string on which `JSON.parse`
throws. -/
inductive StoredPayload where
  | good (teams : List Team)
  | corrupt
deriving DecidableEq, Repr

/-- The two cache keys of localStorage (`f1_teams_cache` and
`f1_teams_cache_timestamp`); `none` models an absent key. The stored
timestamp string is modelled already parsed, as written by
`Date.now().toString()`. -/
structure Store where
  payload : Option StoredPayload
  timestamp : Option Nat
deriving DecidableEq, Repr

/-- The storage state with neither cache key present. -/
def emptyStore : Store := ⟨none, none⟩

/-- `clearCache`: remove both keys (data-fetcher.js lines 214-221). -/
def clearCache (_s : Store) : Store := emptyStore

/-- `cacheTeams`: store the serialized list under the payload key and
the current time under the timestamp key (lines 162-169). -/
def cacheTeams (teamsArray : List Team) (now : Nat) (_s : Store) : Store :=
  ⟨some (.good teamsArray), some now⟩

/-- `getCachedTeams` (lines 175-195): absent timestamp reads as null;
an entry older than `CACHE_DURATION` (strictly) is cleared and reads as
null; an absent payload reads as null; a corrupt payload throws inside
`JSON.parse`, is caught, clears the cache and reads as null; otherwise
the deserialized list is returned. Returns the read result together
with the storage state after the call. -/
def getCachedTeams (now : Nat) (s : Store) : Option (List Team) × Store :=
  match s.timestamp with
  | none => (none, s)
  | some ts =>
    if (now : Int) - (ts : Int) > (CACHE_DURATION : Int) then
      (none, clearCache s)
    else
      match s.payload with
      | none => (none, s)
      | some .corrupt => (none, clearCache s)
      | some (.good teams) => (some teams, s)

/-- `isCacheExpired` (lines 201-209). -/
def isCacheExpired (now : Nat) (s : Store) : Bool :=
  match s.timestamp with
  | none => true
  | some ts => decide ((now : Int) - (ts : Int) > (CACHE_DURATION : Int))

/-- `isCacheValid` of the utils module (lines 372-375): strict `<`. -/
def isCacheValid (now : Nat) (timestamp : Nat) : Bool :=
  decide ((now : Int) - (timestamp : Int) < (CACHE_DURATION : Int))

/-- The error taxonomy of the remote fetch: the timeout of the
`Promise.race`, a non-ok HTTP status, and the
`Invalid API response structure` case. -/
inductive FetchError where
  | timeout
  | httpError (status : Nat)
  | malformedResponse
deriving DecidableEq, Repr

/-- The HTTP response the environment hands the remote fetch when the
network wins the race: `ok`/`status` of the response object, and the
body, where `none` models a body lacking the nested
`MRData.TeamTable.Teams` envelope and `some l` a well-formed envelope
carrying the upstream records `l`. -/
structure HttpResponse where
  ok : Bool
  status : Nat
  body : Option (List ErgastTeam)
deriving DecidableEq, Repr

/-- Outcome of racing the network call against the 5000 ms timeout. -/
inductive RemoteOutcome where
  | timeout
  | response (r : HttpResponse)
deriving DecidableEq, Repr

/-- The per-record transform of `fetchFromErgastAPI`
(data-fetcher.js lines 73-91). -/
def transformTeam (currentYear : Int) (t : ErgastTeam) : Team :=
  { id := jsSlugify t.name
    name := t.name
    logo := "/images/logos/" ++ jsSlugify t.name ++ ".svg"
    country := t.nationality
    founded := foundedOf currentYear t.established
    principal := "Team Principal"
    powerUnit := jsOrStr t.ctor "Mercedes"
    championships := 0
    wins := 0
    podiums := 0
    accent_color := DataFetcher.getTeamAccentColor t.name
    drivers := []
    website := jsOrStr t.url "#"
    socialTwitter := "#"
    socialInstagram := "#" }

/-- `fetchFromErgastAPI` (lines 58-97): the timeout rejects with
`Fetch timeout`; a non-ok response rejects with the HTTP error carrying
the status; a body without the nested envelope rejects with
`Invalid API response structure`; a well-formed body is mapped through
the transform. -/
def fetchFromErgastAPI (currentYear : Int) (outcome : RemoteOutcome) :
    Except FetchError (List Team) :=
  match outcome with
  | .timeout => .error .timeout
  | .response r =>
    if !r.ok then .error (.httpError r.status)
    else
      match r.body with
      | none => .error .malformedResponse
      | some teams => .ok (teams.map (transformTeam currentYear))

/-- The parsed static fallback document; `teams := none` models a
document without a `teams` key. -/
structure FallbackDoc where
  teams : Option (List Team)
deriving DecidableEq, Repr

/-- `fetchFallbackJSON` (lines 103-112) catches every failure and
returns null, so the environment hands the pipeline either the parsed
document or `none`. -/
def fetchFallbackJSON (outcome : Option FallbackDoc) : Option FallbackDoc :=
  outcome

/-- One invocation's environment: the clock, the current year used by
the transform, the raced remote outcome, and the fallback outcome. -/
structure Env where
  now : Nat
  currentYear : Int
  remote : RemoteOutcome
  fallback : Option FallbackDoc

/-- What one `fetchTeamsData` call produces: the resolved list, the
storage state after the call, and whether the Remote Source and the
Static Fallback were invoked during the call. -/
structure FetchResult where
  teams : List Team
  store : Store
  remoteInvoked : Bool
  fallbackInvoked : Bool
deriving DecidableEq, Repr

/-- Steps 3 and 4 of `fetchTeamsData` (lines 38-47): try the fallback
document, return and cache its team list only when it is present and
non-empty, otherwise resolve to the empty list. -/
def fallbackStep (env : Env) (s1 : Store) : FetchResult :=
  match fetchFallbackJSON env.fallback with
  | some doc =>
    match doc.teams with
    | some ts =>
      if 0 < ts.length then ⟨ts, cacheTeams ts env.now s1, true, true⟩
      else ⟨[], s1, true, true⟩
    | none => ⟨[], s1, true, true⟩
  | none => ⟨[], s1, true, true⟩

/-- `fetchTeamsData` (lines 18-52): cache read first — a hit returns at
once; otherwise the remote fetch, cached and returned when non-empty;
otherwise the fallback step. The JavaScript function catches every
error and resolves, which the embedding reflects by being total. -/
def fetchTeamsData (env : Env) (s : Store) : FetchResult :=
  let read := getCachedTeams env.now s
  match read.fst with
  | some data => ⟨data, read.snd, false, false⟩
  | none =>
    match fetchFromErgastAPI env.currentYear env.remote with
    | .ok apiData =>
      if 0 < apiData.length then
        ⟨apiData, cacheTeams apiData env.now read.snd, true, false⟩
      else fallbackStep env read.snd
    | .error _ => fallbackStep env read.snd

/-- One Cache Store operation: write, read, or purge. -/
inductive CacheOp where
  | write (teams : List Team) (now : Nat)
  | read (now : Nat)
  | purge

/-- Effect of one Cache Store operation on storage. -/
def applyOp (s : Store) : CacheOp → Store
  | .write ts now => cacheTeams ts now s
  | .read now => (getCachedTeams now s).snd
  | .purge => clearCache s

/-- Storage after a sequence of Cache Store operations. -/
def runOps (s : Store) (ops : List CacheOp) : Store :=
  ops.foldl applyOp s

/-- Storage after a sequence of pipeline invocations, one environment
per invocation, starting from the given store. -/
def runPipeline (s : Store) (envs : List Env) : Store :=
  envs.foldl (fun st env => (fetchTeamsData env st).store) s

/-- Both cache keys present or both absent. -/
def pairedKeys (s : Store) : Prop :=
  s.payload = none ↔ s.timestamp = none

/-- Every stored payload deserializes to a non-empty list. -/
def goodStore (s : Store) : Prop :=
  ∀ l, s.payload = some (.good l) → 0 < l.length

/-- A concrete team record used by witnesses and counterexamples. -/
def sampleTeam : Team :=
  { id := "ferrari"
    name := "Ferrari"
    logo := "/images/logos/ferrari.svg"
    country := "Italian"
    founded := 1950
    principal := "Team Principal"
    powerUnit := "Ferrari"
    championships := 0
    wins := 0
    podiums := 0
    accent_color := "#FF1801"
    drivers := []
    website := "#"
    socialTwitter := "#"
    socialInstagram := "#" }

/-- Claim C1 counterexample: a cache entry whose age is exactly 24 hours
is served by `getCachedTeams`, because the code tests
`now - timestamp > CACHE_DURATION` for expiry — yet `now - t < 24h`
fails there, so the claimed strict-inequality boundary does not hold. -/
theorem getCachedTeams_exact_boundary_served :
    (getCachedTeams CACHE_DURATION ⟨some (.good [sampleTeam]), some 0⟩).fst
      = some [sampleTeam]
    ∧ ¬ ((CACHE_DURATION : Int) - ((0 : Nat) : Int) < (CACHE_DURATION : Int)) := by
  refine ⟨rfl, by decide⟩

/-- Claim C1 (amended): for every stored entry with timestamp `t` and an
intact payload, `getCachedTeams` returns the stored payload iff
`now - t ≤ 24h` — inclusive at the boundary, so an entry aged exactly
24 hours is still treated as valid. -/
theorem getCachedTeams_validity_boundary (now t : Nat) (l : List Team) :
    (getCachedTeams now ⟨some (.good l), some t⟩).fst = some l
      ↔ (now : Int) - (t : Int) ≤ (CACHE_DURATION : Int) := by
  simp only [getCachedTeams]
  split
  · rename_i h
    constructor
    · intro hc
      exact absurd hc (by simp)
    · intro hle
      omega
  · rename_i h
    constructor
    · intro _
      omega
    · intro _
      rfl

/-- Claim C5 counterexample: with a payload key present but no timestamp
key, the read returns absent yet purges nothing — the payload key
survives in storage. -/
theorem getCachedTeams_missing_timestamp_no_purge :
    (getCachedTeams 5 ⟨some (.good [sampleTeam]), none⟩).fst = none
    ∧ (getCachedTeams 5 ⟨some (.good [sampleTeam]), none⟩).snd.payload
        = some (.good [sampleTeam]) :=
  ⟨rfl, rfl⟩

/-- Claim C5 (amended): the read deletes both keys exactly in the
expired-entry and corrupt-payload cases; when the timestamp key is
missing, or the payload key is missing, the read returns absent but
leaves storage untouched. -/
theorem getCachedTeams_absent_purge (now : Nat) (s : Store) :
    (s.timestamp = none → getCachedTeams now s = (none, s))
    ∧ (∀ ts, s.timestamp = some ts →
        (now : Int) - (ts : Int) > (CACHE_DURATION : Int) →
        getCachedTeams now s = (none, emptyStore))
    ∧ (∀ ts, s.timestamp = some ts →
        ¬ ((now : Int) - (ts : Int) > (CACHE_DURATION : Int)) →
        s.payload = none → getCachedTeams now s = (none, s))
    ∧ (∀ ts, s.timestamp = some ts →
        ¬ ((now : Int) - (ts : Int) > (CACHE_DURATION : Int)) →
        s.payload = some .corrupt → getCachedTeams now s = (none, emptyStore)) := by
  obtain ⟨p, t⟩ := s
  refine ⟨?_, ?_, ?_, ?_⟩
  · intro ht
    subst ht
    rfl
  · intro ts ht hexp
    cases ht
    simp only [getCachedTeams]
    rw [if_pos hexp]
    rfl
  · intro ts ht hnexp hp
    cases ht
    subst hp
    simp only [getCachedTeams]
    rw [if_neg hnexp]
  · intro ts ht hnexp hp
    cases ht
    subst hp
    simp only [getCachedTeams]
    rw [if_neg hnexp]
    rfl

/-- Witness for the amended C5 theorem at a concrete storage state. -/
theorem getCachedTeams_absent_purge_witness :
    getCachedTeams 5 ⟨some (.good []), none⟩ = (none, ⟨some (.good []), none⟩) :=
  (getCachedTeams_absent_purge 5 ⟨some (.good []), none⟩).1 rfl

/-- Claim C2: when the cache read yields absent, the remote fetch fails
with any of its errors, and the fallback either fails or carries a
missing or empty `teams` sequence, `fetchTeamsData` resolves to the
empty list. The embedding of `fetchTeamsData` is a total function, the
image of the outer `try`/`catch` through which no error escapes to the
caller. -/
theorem fetchTeamsData_total_failure (env : Env) (s : Store)
    (hc : (getCachedTeams env.now s).fst = none)
    (hr : ∃ e, fetchFromErgastAPI env.currentYear env.remote = .error e)
    (hf : env.fallback = none
          ∨ ∃ doc, env.fallback = some doc
              ∧ (doc.teams = none ∨ doc.teams = some [])) :
    (fetchTeamsData env s).teams = [] := by
  obtain ⟨e, he⟩ := hr
  simp only [fetchTeamsData, hc, he]
  rcases hf with h | ⟨doc, hd, ht | ht⟩
  · simp [fallbackStep, fetchFallbackJSON, h]
  · simp [fallbackStep, fetchFallbackJSON, hd, ht]
  · simp [fallbackStep, fetchFallbackJSON, hd, ht]

/-- Witness for C2 with an empty store, a timed-out remote fetch and a
failed fallback fetch. -/
theorem fetchTeamsData_total_failure_witness :
    (fetchTeamsData ⟨0, 2024, .timeout, none⟩ emptyStore).teams = [] :=
  fetchTeamsData_total_failure ⟨0, 2024, .timeout, none⟩ emptyStore rfl
    ⟨.timeout, rfl⟩ (Or.inl rfl)

/-- Claim C3: when the cache read returns a present list, that list is
returned and neither the Remote Source nor the Static Fallback is
invoked during the call. -/
theorem fetchTeamsData_cache_hit (env : Env) (s : Store) (l : List Team)
    (hc : (getCachedTeams env.now s).fst = some l) :
    (fetchTeamsData env s).teams = l
    ∧ (fetchTeamsData env s).remoteInvoked = false
    ∧ (fetchTeamsData env s).fallbackInvoked = false := by
  simp only [fetchTeamsData, hc]
  exact ⟨trivial, trivial, trivial⟩

/-- Witness for C3 on a store holding a fresh valid entry. -/
theorem fetchTeamsData_cache_hit_witness :
    (fetchTeamsData ⟨0, 2024, .timeout, none⟩
        ⟨some (.good [sampleTeam]), some 0⟩).teams = [sampleTeam]
    ∧ (fetchTeamsData ⟨0, 2024, .timeout, none⟩
        ⟨some (.good [sampleTeam]), some 0⟩).remoteInvoked = false
    ∧ (fetchTeamsData ⟨0, 2024, .timeout, none⟩
        ⟨some (.good [sampleTeam]), some 0⟩).fallbackInvoked = false :=
  fetchTeamsData_cache_hit ⟨0, 2024, .timeout, none⟩
    ⟨some (.good [sampleTeam]), some 0⟩ [sampleTeam] rfl

/-- Claim C4: when the cache is absent and the remote fetch fails, a
fallback document with a non-empty `teams` list is returned verbatim
and written to the Cache Store, while a missing or empty `teams`
sequence is treated as fallback failure: nothing is cached and the
empty list is resolved. -/
theorem fetchTeamsData_fallthrough (env : Env) (s : Store) (doc : FallbackDoc)
    (hc : (getCachedTeams env.now s).fst = none)
    (hr : ∃ e, fetchFromErgastAPI env.currentYear env.remote = .error e)
    (hd : env.fallback = some doc) :
    (∀ ts, doc.teams = some ts → ts ≠ [] →
        (fetchTeamsData env s).teams = ts
        ∧ (fetchTeamsData env s).store = ⟨some (.good ts), some env.now⟩)
    ∧ ((doc.teams = none ∨ doc.teams = some []) →
        (fetchTeamsData env s).teams = []
        ∧ (fetchTeamsData env s).store = (getCachedTeams env.now s).snd) := by
  obtain ⟨e, he⟩ := hr
  constructor
  · intro ts hts hne
    have hlen : 0 < ts.length := List.length_pos.mpr hne
    simp only [fetchTeamsData, hc, he, fallbackStep, fetchFallbackJSON, hd, hts]
    rw [if_pos hlen]
    exact ⟨rfl, rfl⟩
  · rintro (hts | hts) <;>
      simp [fetchTeamsData, hc, he, fallbackStep, fetchFallbackJSON, hd, hts]

/-- Witness for C4 with a timed-out remote fetch and a one-team
fallback document. -/
theorem fetchTeamsData_fallthrough_witness :
    (fetchTeamsData ⟨7, 2024, .timeout, some ⟨some [sampleTeam]⟩⟩
        emptyStore).teams = [sampleTeam]
    ∧ (fetchTeamsData ⟨7, 2024, .timeout, some ⟨some [sampleTeam]⟩⟩
        emptyStore).store = ⟨some (.good [sampleTeam]), some 7⟩ :=
  (fetchTeamsData_fallthrough ⟨7, 2024, .timeout, some ⟨some [sampleTeam]⟩⟩
      emptyStore ⟨some [sampleTeam]⟩ rfl ⟨.timeout, rfl⟩ rfl).1
    [sampleTeam] rfl (by simp)

/-- Claim C6: a successful response whose body lacks the nested
`MRData.TeamTable.Teams` envelope makes the remote fetch fail with the
malformed-response error (so it never completes with an empty list
there), and any non-ok response makes it fail with the HTTP error
carrying the response status. -/
theorem fetchFromErgastAPI_error_modes (currentYear : Int) (status : Nat)
    (body : Option (List ErgastTeam)) :
    fetchFromErgastAPI currentYear (.response ⟨true, status, none⟩)
      = .error .malformedResponse
    ∧ (fetchFromErgastAPI currentYear (.response ⟨true, status, none⟩)).toOption
      = none
    ∧ fetchFromErgastAPI currentYear (.response ⟨false, status, body⟩)
      = .error (.httpError status) :=
  ⟨rfl, rfl, rfl⟩

/-- Claim C7: a successful, well-formed response is mapped record-wise
through the transform, and the transform gives each team an id equal to
the lower-cased name with whitespace runs collapsed to hyphens, zero
championships, wins and podiums, an empty driver sequence, and an
accent color resolved through the trimmed, lower-cased name→hex lookup
with default `#FF1801`. -/
theorem fetchFromErgastAPI_normalization (currentYear : Int) (status : Nat)
    (upstream : List ErgastTeam) :
    fetchFromErgastAPI currentYear (.response ⟨true, status, some upstream⟩)
      = .ok (upstream.map (transformTeam currentYear))
    ∧ ∀ t : ErgastTeam,
        (transformTeam currentYear t).id
          = String.mk (collapseWsAux false ((jsToLower t.name).data))
        ∧ (transformTeam currentYear t).championships = 0
        ∧ (transformTeam currentYear t).wins = 0
        ∧ (transformTeam currentYear t).podiums = 0
        ∧ (transformTeam currentYear t).drivers = []
        ∧ (transformTeam currentYear t).accent_color
            = (assocLookup DataFetcher.colors
                (jsTrim (jsToLower t.name))).getD "#FF1801" :=
  ⟨rfl, fun _ => ⟨rfl, rfl, rfl, rfl, rfl, rfl⟩⟩

/-- A key absent from the key column of an association list looks up to
`none`. -/
theorem assocLookup_eq_none_of_not_mem (l : List (String × String)) (k : String)
    (h : k ∉ l.map Prod.fst) : assocLookup l k = none := by
  induction l with
  | nil => rfl
  | cons p rest ih =>
    obtain ⟨a, b⟩ := p
    simp only [List.map_cons, List.mem_cons, not_or] at h
    simp only [assocLookup]
    rw [if_neg (fun he => h.1 he.symm)]
    exact ih h.2

/-- Claim C8: both accent-color functions send `"Red Bull"` and
`" red bull "` to `#0600EF`, and each returns `#FF1801` for every name
whose trimmed, lower-cased form is not a key of its table. -/
theorem getTeamAccentColor_lookup :
    (DataFetcher.getTeamAccentColor "Red Bull" = "#0600EF"
     ∧ DataFetcher.getTeamAccentColor " red bull " = "#0600EF"
     ∧ Utils.getTeamAccentColor "Red Bull" = "#0600EF"
     ∧ Utils.getTeamAccentColor " red bull " = "#0600EF")
    ∧ (∀ name : String,
        jsTrim (jsToLower name) ∉ DataFetcher.colors.map Prod.fst →
        DataFetcher.getTeamAccentColor name = "#FF1801")
    ∧ (∀ name : String,
        jsTrim (jsToLower name) ∉ Utils.colors.map Prod.fst →
        Utils.getTeamAccentColor name = "#FF1801") := by
  refine ⟨⟨by decide, by decide, by decide, by decide⟩, ?_, ?_⟩
  · intro name h
    unfold DataFetcher.getTeamAccentColor
    rw [assocLookup_eq_none_of_not_mem _ _ h]
    rfl
  · intro name h
    unfold Utils.getTeamAccentColor
    rw [assocLookup_eq_none_of_not_mem _ _ h]
    rfl

/-- Witness for C8 at a name outside both tables. -/
theorem getTeamAccentColor_lookup_witness :
    DataFetcher.getTeamAccentColor "Lotus" = "#FF1801"
    ∧ Utils.getTeamAccentColor "Lotus" = "#FF1801" :=
  ⟨getTeamAccentColor_lookup.2.1 "Lotus" (by decide),
   getTeamAccentColor_lookup.2.2 "Lotus" (by decide)⟩

/-- One Cache Store operation keeps the two keys paired. -/
theorem pairedKeys_applyOp (s : Store) (op : CacheOp) (h : pairedKeys s) :
    pairedKeys (applyOp s op) := by
  cases op with
  | write ts now => simp [applyOp, cacheTeams, pairedKeys]
  | purge => simp [applyOp, clearCache, emptyStore, pairedKeys]
  | read now =>
    obtain ⟨p, t⟩ := s
    cases t with
    | none => exact h
    | some ts =>
      simp only [applyOp, getCachedTeams]
      split
      · simp [clearCache, emptyStore, pairedKeys]
      · cases p with
        | none => simp [pairedKeys] at h
        | some sp =>
          cases sp with
          | good l => simp [pairedKeys]
          | corrupt => simp [clearCache, emptyStore, pairedKeys]

/-- Claim C9: from any storage state with paired keys, every sequence of
Cache Store operations (write, read, purge) leaves the payload and
timestamp keys paired — neither is ever present without the other — and
a state whose timestamp key is absent always reads as absent, whatever
its payload key holds. -/
theorem cacheOps_paired_keys (s : Store) (ops : List CacheOp)
    (h : pairedKeys s) :
    pairedKeys (runOps s ops)
    ∧ ∀ (now : Nat) (s' : Store), s'.timestamp = none →
        (getCachedTeams now s').fst = none := by
  constructor
  · induction ops generalizing s with
    | nil => exact h
    | cons op rest ih => exact ih _ (pairedKeys_applyOp s op h)
  · intro now s' ht
    obtain ⟨p, t⟩ := s'
    have ht' : t = none := ht
    subst ht'
    rfl

/-- Witness for C9 on a write followed by a read, from empty storage. -/
theorem cacheOps_paired_keys_witness :
    pairedKeys (runOps emptyStore [CacheOp.write [sampleTeam] 0, CacheOp.read 5]) :=
  (cacheOps_paired_keys emptyStore [CacheOp.write [sampleTeam] 0, CacheOp.read 5]
    ⟨fun _ => rfl, fun _ => rfl⟩).1

/-- The storage state after a read is the state before it or the empty
state. -/
theorem getCachedTeams_snd_cases (now : Nat) (s : Store) :
    (getCachedTeams now s).snd = s ∨ (getCachedTeams now s).snd = emptyStore := by
  obtain ⟨p, t⟩ := s
  cases t with
  | none => exact Or.inl rfl
  | some ts =>
    simp only [getCachedTeams]
    split
    · exact Or.inr rfl
    · cases p with
      | none => exact Or.inl rfl
      | some sp =>
        cases sp with
        | good l => exact Or.inl rfl
        | corrupt => exact Or.inr rfl

/-- The empty storage state stores no payload at all. -/
theorem goodStore_emptyStore : goodStore emptyStore := by
  intro l h
  exact Option.noConfusion h

/-- Reading preserves the non-empty-payload invariant. -/
theorem goodStore_getCachedTeams_snd (now : Nat) (s : Store)
    (h : goodStore s) : goodStore (getCachedTeams now s).snd := by
  rcases getCachedTeams_snd_cases now s with hc | hc <;> rw [hc]
  · exact h
  · exact goodStore_emptyStore

/-- The fallback step of the pipeline preserves the non-empty-payload
invariant: it writes only a `teams` list it has checked non-empty. -/
theorem goodStore_fallbackStep (env : Env) (s1 : Store)
    (h : goodStore s1) : goodStore ((fallbackStep env s1).store) := by
  rcases hf : env.fallback with _ | doc
  · simp only [fallbackStep, fetchFallbackJSON, hf]
    exact h
  · rcases ht : doc.teams with _ | ts
    · simp only [fallbackStep, fetchFallbackJSON, hf, ht]
      exact h
    · by_cases hlen : 0 < ts.length
      · simp only [fallbackStep, fetchFallbackJSON, hf, ht, if_pos hlen]
        intro l hl
        have : ts = l := by simpa [cacheTeams] using hl
        exact this ▸ hlen
      · simp only [fallbackStep, fetchFallbackJSON, hf, ht, if_neg hlen]
        exact h

/-- One pipeline invocation preserves the non-empty-payload invariant:
the cache write runs only behind a `length > 0` check. -/
theorem goodStore_fetchStep (env : Env) (s : Store) (h : goodStore s) :
    goodStore ((fetchTeamsData env s).store) := by
  cases hr : (getCachedTeams env.now s).fst with
  | some data =>
    simp only [fetchTeamsData, hr]
    exact goodStore_getCachedTeams_snd env.now s h
  | none =>
    cases hapi : fetchFromErgastAPI env.currentYear env.remote with
    | ok apiData =>
      by_cases hlen : 0 < apiData.length
      · simp only [fetchTeamsData, hr, hapi, if_pos hlen]
        intro l hl
        have : apiData = l := by simpa [cacheTeams] using hl
        exact this ▸ hlen
      · simp only [fetchTeamsData, hr, hapi, if_neg hlen]
        exact goodStore_fallbackStep env _ (goodStore_getCachedTeams_snd env.now s h)
    | error e =>
      simp only [fetchTeamsData, hr, hapi]
      exact goodStore_fallbackStep env _ (goodStore_getCachedTeams_snd env.now s h)

/-- A run of pipeline invocations preserves the invariant. -/
theorem goodStore_runPipeline (envs : List Env) (s : Store)
    (h : goodStore s) : goodStore (runPipeline s envs) := by
  induction envs generalizing s with
  | nil => exact h
  | cons e rest ih => exact ih _ (goodStore_fetchStep e s h)

/-- A present read result is exactly the stored payload. -/
theorem getCachedTeams_fst_some (now : Nat) (s : Store) (l : List Team)
    (h : (getCachedTeams now s).fst = some l) :
    s.payload = some (.good l) := by
  obtain ⟨p, t⟩ := s
  cases t with
  | none => exact Option.noConfusion h
  | some ts =>
    simp only [getCachedTeams] at h
    split at h
    · exact Option.noConfusion h
    · cases p with
      | none => exact Option.noConfusion h
      | some sp =>
        cases sp with
        | good lt =>
          cases h
          rfl
        | corrupt => exact Option.noConfusion h

/-- Claim C10: the pipeline writes only non-empty lists to the Cache
Store (each cache write sits behind a `length > 0` check), so along any
run of pipeline invocations from empty storage, every cache hit yields
a non-empty list. -/
theorem pipeline_cache_hit_nonempty :
    (∀ (env : Env) (s : Store), goodStore s →
        goodStore ((fetchTeamsData env s).store))
    ∧ (∀ (envs : List Env) (now : Nat) (l : List Team),
        (getCachedTeams now (runPipeline emptyStore envs)).fst = some l →
        0 < l.length) := by
  constructor
  · exact goodStore_fetchStep
  · intro envs now l h
    exact goodStore_runPipeline envs emptyStore goodStore_emptyStore l
      (getCachedTeams_fst_some now _ l h)

/-- Witness for C10 on one pipeline invocation from empty storage. -/
theorem pipeline_cache_hit_nonempty_witness :
    goodStore ((fetchTeamsData ⟨0, 2024, .timeout, none⟩ emptyStore).store) :=
  pipeline_cache_hit_nonempty.1 ⟨0, 2024, .timeout, none⟩ emptyStore
    (fun _ h => Option.noConfusion h)

end F1Portal
